import Mathlib

/-!
Shallow embedding of the reconciliation engine in `sync.py` of the
airbnb-lock-manager repository: bookings, snapshots, change detection
(`AirbnbWyzeSync.detect_changes`), application of a change set against the
lock device (`AirbnbWyzeSync.process_changes`, `WyzeLockAPI.add_code`,
`WyzeLockAPI.remove_code`), the cleanup sweep
(`AirbnbWyzeSync.cleanup_old_codes`), state persistence
(`AirbnbWyzeSync.save_bookings_state`) and the orchestrating run
(`AirbnbWyzeSync.sync`).

Modelling conventions: iCal date/datetime strings stay `String`; the
`datetime.fromisoformat` ordering used for classification is an abstract
parameter `parseDT : String → Int`; instants elsewhere are `Int` minutes.
Transport failures of the Wyze API (`WyzeApiError`) are an oracle in
`LockEnv`; a raised Python exception is modelled by an explicit
`raised` flag that aborts the surrounding loops the way propagation does
in the source.
-/

/-- Booking record as built by `AirbnbWyzeSync._parse_ical` (sync.py:360-368). -/
structure Booking where
  guest_name : String
  reservation_id : Option String
  start : String
  end_ : String
  code : String
  phone_last4 : Option String
  created_at : String
deriving DecidableEq, Repr

/-- Before/after pair stored in the `extensions` / `date_changes` lists. -/
structure ChangePair where
  before : Booking
  after : Booking
deriving DecidableEq, Repr

/-- Result of `AirbnbWyzeSync.detect_changes` (sync.py:390-395). -/
structure Changes where
  cancellations : List Booking
  new_bookings : List Booking
  extensions : List ChangePair
  date_changes : List ChangePair
deriving DecidableEq, Repr

/-- The `api_key_warnings` mapping persisted in the state file
(keys `expired`, `1day`, `1week`, `1month`; sync.py:201-257). -/
structure Warnings where
  expired : Bool
  day1 : Bool
  week1 : Bool
  month1 : Bool
deriving DecidableEq, Repr

/-- Content of `bookings_state.json`: bookings snapshot, warning flags,
`last_sync` instant. -/
structure SyncState where
  bookings : List (String × Booking)
  api_key_warnings : Warnings
  last_sync : Option Int
deriving DecidableEq, Repr

/-- Python dict lookup by key; a snapshot dict is modelled as an
association list (first binding wins). -/
def dlookup (k : String) : List (String × Booking) → Option Booking
  | [] => none
  | kv :: rest => if kv.1 = k then some kv.2 else dlookup k rest

/-- `AirbnbWyzeSync.detect_changes` (sync.py:377-425): set difference for
cancellations and new bookings; on the intersection, a booking whose
`(start, end)` strings changed is an extension iff the parsed current end
is strictly later than the parsed previous end, otherwise a date change. -/
def detect_changes (parseDT : String → Int) (previous : SyncState)
    (current : List (String × Booking)) : Changes :=
  let prevB := previous.bookings
  { cancellations := (prevB.filter (fun kv => (dlookup kv.1 current).isNone)).map Prod.snd
    new_bookings := (current.filter (fun kv => (dlookup kv.1 prevB).isNone)).map Prod.snd
    extensions := current.filterMap (fun kv =>
      (dlookup kv.1 prevB).bind (fun p =>
        if (p.start ≠ kv.2.start ∨ p.end_ ≠ kv.2.end_) ∧ parseDT p.end_ < parseDT kv.2.end_
        then some ⟨p, kv.2⟩ else none))
    date_changes := current.filterMap (fun kv =>
      (dlookup kv.1 prevB).bind (fun p =>
        if (p.start ≠ kv.2.start ∨ p.end_ ≠ kv.2.end_) ∧ ¬ parseDT p.end_ < parseDT kv.2.end_
        then some ⟨p, kv.2⟩ else none)) }

theorem dlookup_mem {k : String} {v : Booking} {l : List (String × Booking)}
    (h : dlookup k l = some v) : (k, v) ∈ l := by
  induction l with
  | nil => simp [dlookup] at h
  | cons kv rest ih =>
    cases kv with
    | mk k1 v1 =>
      by_cases hk : k1 = k
      · subst hk
        simp [dlookup] at h
        subst h
        exact List.mem_cons_self _ _
      · simp [dlookup, hk] at h
        exact List.mem_cons_of_mem _ (ih h)

/-- C1: for a booking id present in both snapshots whose `(start, end)` pair
differs, `detect_changes` classifies the pair as an extension iff the parsed
current end is strictly later than the parsed previous end, as a date change
otherwise, and the pair is never dropped (a start-only move lands in
date changes). -/
theorem detect_changes_modified_classification
    (parseDT : String → Int) (previous : SyncState) (current : List (String × Booking))
    (id : String) (bp bc : Booking)
    (hp : dlookup id previous.bookings = some bp)
    (hc : dlookup id current = some bc)
    (hdiff : bp.start ≠ bc.start ∨ bp.end_ ≠ bc.end_) :
    (ChangePair.mk bp bc ∈ (detect_changes parseDT previous current).extensions
        ↔ parseDT bp.end_ < parseDT bc.end_)
    ∧ (ChangePair.mk bp bc ∈ (detect_changes parseDT previous current).date_changes
        ↔ ¬ parseDT bp.end_ < parseDT bc.end_)
    ∧ (ChangePair.mk bp bc ∈ (detect_changes parseDT previous current).extensions
        ∨ ChangePair.mk bp bc ∈ (detect_changes parseDT previous current).date_changes) := by
  have hmem : (id, bc) ∈ current := dlookup_mem hc
  have hext : ChangePair.mk bp bc ∈ (detect_changes parseDT previous current).extensions
      ↔ parseDT bp.end_ < parseDT bc.end_ := by
    constructor
    · intro h
      rcases List.mem_filterMap.mp h with ⟨kv, _, hf⟩
      cases hdl : dlookup kv.1 previous.bookings with
      | none => rw [hdl] at hf; simp at hf
      | some p =>
        rw [hdl] at hf
        simp only [Option.some_bind] at hf
        split at hf
        · next hcond =>
          have h1 : p = bp ∧ kv.2 = bc := by
            have h2 := Option.some.inj hf
            exact ⟨congrArg ChangePair.before h2, congrArg ChangePair.after h2⟩
          rw [h1.1, h1.2] at hcond
          exact hcond.2
        · simp at hf
    · intro h
      refine List.mem_filterMap.mpr ⟨(id, bc), hmem, ?_⟩
      rw [show ((id, bc) : String × Booking).1 = id from rfl, hp]
      simp only [Option.some_bind]
      rw [if_pos ⟨hdiff, h⟩]
  have hdc : ChangePair.mk bp bc ∈ (detect_changes parseDT previous current).date_changes
      ↔ ¬ parseDT bp.end_ < parseDT bc.end_ := by
    constructor
    · intro h
      rcases List.mem_filterMap.mp h with ⟨kv, _, hf⟩
      cases hdl : dlookup kv.1 previous.bookings with
      | none => rw [hdl] at hf; simp at hf
      | some p =>
        rw [hdl] at hf
        simp only [Option.some_bind] at hf
        split at hf
        · next hcond =>
          have h1 : p = bp ∧ kv.2 = bc := by
            have h2 := Option.some.inj hf
            exact ⟨congrArg ChangePair.before h2, congrArg ChangePair.after h2⟩
          rw [h1.1, h1.2] at hcond
          exact hcond.2
        · simp at hf
    · intro h
      refine List.mem_filterMap.mpr ⟨(id, bc), hmem, ?_⟩
      rw [show ((id, bc) : String × Booking).1 = id from rfl, hp]
      simp only [Option.some_bind]
      rw [if_pos ⟨hdiff, h⟩]
  refine ⟨hext, hdc, ?_⟩
  by_cases h : parseDT bp.end_ < parseDT bc.end_
  · exact Or.inl (hext.mpr h)
  · exact Or.inr (hdc.mpr h)

/-- Concrete parse for witnesses: orders the two date strings used below. -/
def dtVal : String → Int :=
  fun s => if s = "2026-02-07" then 7 else if s = "2026-02-05" then 5 else 0

def bW_prev : Booking :=
  ⟨"Alice", none, "2026-02-01", "2026-02-05", "1234", some "1234", "t0"⟩

def bW_curr : Booking :=
  ⟨"Alice", none, "2026-01-30", "2026-02-05", "1234", some "1234", "t1"⟩

def stateW : SyncState := ⟨[("B1", bW_prev)], ⟨false, false, false, false⟩, some 0⟩

/-- Witness for C1: a start-moved-earlier, end-unchanged booking is
classified as a date change. -/
theorem detect_changes_modified_classification_witness :
    ChangePair.mk bW_prev bW_curr ∈
      (detect_changes dtVal stateW [("B1", bW_curr)]).date_changes :=
  ((detect_changes_modified_classification dtVal stateW [("B1", bW_curr)]
      "B1" bW_prev bW_curr rfl rfl (by decide)).2.1).mpr (by decide)

/-! Lock device model: code records on the device, transport-failure oracle,
and the operations of `WyzeLockAPI` as used by `process_changes`. -/

/-- Access-code record on the lock device (code value, name tag, validity
window as observed by `cleanup_old_codes` through `permission.end`). -/
structure CodeRec where
  code : String
  name : String
  permBegin : Option Int
  permEnd : Option Int
deriving DecidableEq, Repr

/-- Oracle for `WyzeApiError` transport failures of the vendor API, keyed by
the code value the call concerns. -/
structure LockEnv where
  removeApiFails : String → Bool
  addApiFails : String → Bool
  deleteFails : String → Bool

/-- Operations `process_changes` performs against the lock, in call order. -/
inductive LockOp where
  | removeCall : String → LockOp
  | addCall : String → LockOp
deriving DecidableEq, Repr

/-- Configuration consumed by the controller (sync.py:129-137); the time
zone localization is modelled as a fixed additive offset in minutes, and
`apiKeyDaysUntil` is the parsed `WYZE_API_KEY_EXPIRES` distance from now in
days (`none` when unset or unparseable). -/
structure Config where
  check_in_time : String
  check_out_time : String
  activation_buffer_minutes : Int
  expiration_buffer_minutes : Int
  tzOffset : Int
  apiKeyDaysUntil : Option Int
deriving Repr

/-- Parse `"HH:MM"` the way `map(int, time.split(':'))` does. -/
def parseHM (s : String) : Int × Int :=
  match (s.splitOn ":").map String.toNat? with
  | [some h, some m] => ((h : Int), (m : Int))
  | _ => (0, 0)

/-- Validity-window computation of `WyzeLockAPI.add_code` (sync.py:691-728):
check-in/check-out clock times on the booking's start/end dates, localized,
minus the activation buffer and plus the expiration buffer. `dayNum` abstracts
`datetime.fromisoformat(iso).date()` as a day index. -/
def add_code_window (dayNum : String → Int) (cfg : Config)
    (start_iso end_iso : String) : Int × Int :=
  let ci := parseHM cfg.check_in_time
  let co := parseHM cfg.check_out_time
  let check_in_dt := dayNum start_iso * 1440 + ci.1 * 60 + ci.2 + cfg.tzOffset
  let check_out_dt := dayNum end_iso * 1440 + co.1 * 60 + co.2 + cfg.tzOffset
  (check_in_dt - cfg.activation_buffer_minutes,
   check_out_dt + cfg.expiration_buffer_minutes)

/-- `WyzeLockAPI.add_code` (sync.py:687-762): attempts to create the code
with name tag `Guest_<code>`; every vendor error — duplicate/already-exists
included — is caught and logged, never re-raised, and leaves the device
unchanged. Returns the new device state and whether an error was logged. -/
def add_code (cfg : Config) (dayNum : String → Int) (env : LockEnv)
    (st : List CodeRec) (code start_iso end_iso : String) : List CodeRec × Bool :=
  let w := add_code_window dayNum cfg start_iso end_iso
  if env.addApiFails code || st.any (fun r => r.code == code) then (st, true)
  else (st ++ [⟨code, "Guest_" ++ code, some w.1, some w.2⟩], false)

/-- Delete the first record whose code value matches, reporting whether one
was found (the lookup loop of `WyzeLockAPI.remove_code`, sync.py:775-789). -/
def removeFirst (code : String) : List CodeRec → List CodeRec × Bool
  | [] => ([], false)
  | r :: rest =>
    if r.code = code then (rest, true)
    else
      let res := removeFirst code rest
      (r :: res.1, res.2)

/-- `WyzeLockAPI.remove_code` (sync.py:764-793): a `WyzeApiError` is logged
and re-raised (`none`); otherwise the first matching record is deleted, or a
not-found warning is logged (`some (state, found)`). -/
def remove_code (env : LockEnv) (st : List CodeRec) (code : String) :
    Option (List CodeRec × Bool) :=
  if env.removeApiFails code then none
  else some (removeFirst code st)

/-- Outcome of one of the three loops inside `process_changes`: device state,
calls made, whether an exception propagated, and the codes whose add was
logged as a vendor API failure. -/
structure StepResult where
  lock : List CodeRec
  trace : List LockOp
  raised : Bool
  addFails : List String
deriving Repr

/-- Cancellation loop of `process_changes` (sync.py:457-459): each removal
is outside any try, so a raised `WyzeApiError` aborts the remaining items. -/
def applyCancellations (env : LockEnv) : List CodeRec → List Booking → StepResult
  | st, [] => ⟨st, [], false, []⟩
  | st, b :: rest =>
    match remove_code env st b.code with
    | none => ⟨st, [LockOp.removeCall b.code], true, []⟩
    | some res =>
      let r := applyCancellations env res.1 rest
      ⟨r.lock, LockOp.removeCall b.code :: r.trace, r.raised, r.addFails⟩

/-- New-booking loop of `process_changes` (sync.py:462-489): `add_code`
swallows every vendor error, so this loop never raises. -/
def applyNew (cfg : Config) (dayNum : String → Int) (env : LockEnv) :
    List CodeRec → List Booking → StepResult
  | st, [] => ⟨st, [], false, []⟩
  | st, b :: rest =>
    let a := add_code cfg dayNum env st b.code b.start b.end_
    let r := applyNew cfg dayNum env a.1 rest
    ⟨r.lock, LockOp.addCall b.code :: r.trace, r.raised,
      (if a.2 then [b.code] else []) ++ r.addFails⟩

/-- Extension/date-change loop of `process_changes` (sync.py:492-519):
remove the old code first (outside the try, so an API error propagates and
the new code is never added), then add the new one. -/
def applyMods (cfg : Config) (dayNum : String → Int) (env : LockEnv) :
    List CodeRec → List ChangePair → StepResult
  | st, [] => ⟨st, [], false, []⟩
  | st, p :: rest =>
    match remove_code env st p.before.code with
    | none => ⟨st, [LockOp.removeCall p.before.code], true, []⟩
    | some res =>
      let a := add_code cfg dayNum env res.1 p.after.code p.after.start p.after.end_
      let r := applyMods cfg dayNum env a.1 rest
      ⟨r.lock, LockOp.removeCall p.before.code :: LockOp.addCall p.after.code :: r.trace,
        r.raised, (if a.2 then [p.after.code] else []) ++ r.addFails⟩

/-- Result of `process_changes`: device state, calls made, whether an
exception propagated out, whether the control-plane-connection failure was
logged, and add failures logged along the way. -/
structure ApplyResult where
  lock : List CodeRec
  trace : List LockOp
  raised : Bool
  connectFail : Bool
  addFails : List String
deriving Repr

/-- `AirbnbWyzeSync.process_changes` (sync.py:427-519): no-op on an empty
change set or in dry-run mode; a failure to initialize the Wyze API is
caught, logged and returns normally; otherwise cancellations, then new
bookings, then extensions ++ date changes. -/
def process_changes (cfg : Config) (dayNum : String → Int) (env : LockEnv)
    (dry_run lockAvailable : Bool) (changes : Changes)
    (st : List CodeRec) : ApplyResult :=
  if changes.cancellations.length + changes.new_bookings.length +
      changes.extensions.length + changes.date_changes.length = 0 then
    ⟨st, [], false, false, []⟩
  else if dry_run then ⟨st, [], false, false, []⟩
  else if lockAvailable = false then ⟨st, [], false, true, []⟩
  else if (applyCancellations env st changes.cancellations).raised then
    ⟨(applyCancellations env st changes.cancellations).lock,
      (applyCancellations env st changes.cancellations).trace, true, false,
      (applyCancellations env st changes.cancellations).addFails⟩
  else
    ⟨(applyMods cfg dayNum env
        (applyNew cfg dayNum env (applyCancellations env st changes.cancellations).lock
          changes.new_bookings).lock
        (changes.extensions ++ changes.date_changes)).lock,
      (applyCancellations env st changes.cancellations).trace
        ++ (applyNew cfg dayNum env
              (applyCancellations env st changes.cancellations).lock
              changes.new_bookings).trace
        ++ (applyMods cfg dayNum env
              (applyNew cfg dayNum env
                (applyCancellations env st changes.cancellations).lock
                changes.new_bookings).lock
              (changes.extensions ++ changes.date_changes)).trace,
      (applyMods cfg dayNum env
        (applyNew cfg dayNum env (applyCancellations env st changes.cancellations).lock
          changes.new_bookings).lock
        (changes.extensions ++ changes.date_changes)).raised, false,
      (applyNew cfg dayNum env (applyCancellations env st changes.cancellations).lock
        changes.new_bookings).addFails
        ++ (applyMods cfg dayNum env
              (applyNew cfg dayNum env
                (applyCancellations env st changes.cancellations).lock
                changes.new_bookings).lock
              (changes.extensions ++ changes.date_changes)).addFails⟩

/-! Helper lemmas about the apply loops. -/

theorem removeFirst_sublist (code : String) :
    ∀ st : List CodeRec, (removeFirst code st).1.Sublist st := by
  intro st
  induction st with
  | nil => simp [removeFirst]
  | cons r rest ih =>
    by_cases h : r.code = code
    · simp only [removeFirst, h, if_pos]
      exact List.Sublist.cons _ (List.Sublist.refl rest)
    · simp only [removeFirst, h, if_neg, if_false]
      exact List.Sublist.cons₂ _ ih

theorem add_code_nodup (cfg : Config) (dayNum : String → Int) (env : LockEnv)
    (st : List CodeRec) (code s e : String)
    (h : (st.map CodeRec.code).Nodup) :
    (((add_code cfg dayNum env st code s e).1).map CodeRec.code).Nodup := by
  by_cases hcond : (env.addApiFails code || st.any (fun r => r.code == code)) = true
  · simpa [add_code, hcond] using h
  · have hnotin : code ∉ st.map CodeRec.code := by
      intro hmem
      rcases List.mem_map.mp hmem with ⟨r, hr, hrc⟩
      apply hcond
      simp only [Bool.or_eq_true, List.any_eq_true]
      exact Or.inr ⟨r, hr, by simp [hrc]⟩
    simp only [add_code, hcond, Bool.false_eq_true, if_false]
    rw [List.map_append]
    refine List.Nodup.append h (List.nodup_singleton _) ?_
    intro a ha hb
    have hac : a = code := by simpa using hb
    rw [hac] at ha
    exact hnotin ha

theorem applyCancellations_spec (env : LockEnv)
    (h : ∀ c, env.removeApiFails c = false) :
    ∀ (st : List CodeRec) (bs : List Booking),
      (applyCancellations env st bs).raised = false
      ∧ (applyCancellations env st bs).trace
          = bs.map (fun b => LockOp.removeCall b.code) := by
  intro st bs
  induction bs generalizing st with
  | nil => simp [applyCancellations]
  | cons b rest ih =>
    have hres := ih ((removeFirst b.code st).1)
    simp [applyCancellations, remove_code, h b.code, hres.1, hres.2]

theorem add_code_fail_of_api (cfg : Config) (dayNum : String → Int) (env : LockEnv)
    (st : List CodeRec) (code s e : String)
    (hfail : env.addApiFails code = true) :
    (add_code cfg dayNum env st code s e).2 = true := by
  simp [add_code, hfail]

theorem applyNew_spec (cfg : Config) (dayNum : String → Int) (env : LockEnv) :
    ∀ (st : List CodeRec) (bs : List Booking),
      (applyNew cfg dayNum env st bs).raised = false
      ∧ (applyNew cfg dayNum env st bs).trace
          = bs.map (fun b => LockOp.addCall b.code)
      ∧ ∀ b ∈ bs, env.addApiFails b.code = true →
          b.code ∈ (applyNew cfg dayNum env st bs).addFails := by
  intro st bs
  induction bs generalizing st with
  | nil => simp [applyNew]
  | cons b rest ih =>
    have hres := ih (add_code cfg dayNum env st b.code b.start b.end_).1
    refine ⟨by simp [applyNew, hres.1], by simp [applyNew, hres.2.1], ?_⟩
    intro b2 hb2 hfail
    rcases List.mem_cons.mp hb2 with hb2 | hb2
    · subst hb2
      have h2 := add_code_fail_of_api cfg dayNum env st b2.code b2.start b2.end_ hfail
      simp [applyNew, h2]
    · have h2 := hres.2.2 b2 hb2 hfail
      simp only [applyNew, List.mem_append]
      right
      exact h2

theorem applyMods_spec (cfg : Config) (dayNum : String → Int) (env : LockEnv)
    (h : ∀ c, env.removeApiFails c = false) :
    ∀ (st : List CodeRec) (ps : List ChangePair),
      (applyMods cfg dayNum env st ps).raised = false
      ∧ (applyMods cfg dayNum env st ps).trace
          = (ps.map (fun p =>
              [LockOp.removeCall p.before.code, LockOp.addCall p.after.code])).flatten
      ∧ ∀ p ∈ ps, env.addApiFails p.after.code = true →
          p.after.code ∈ (applyMods cfg dayNum env st ps).addFails := by
  intro st ps
  induction ps generalizing st with
  | nil => simp [applyMods]
  | cons p rest ih =>
    have hres := ih (add_code cfg dayNum env (removeFirst p.before.code st).1
      p.after.code p.after.start p.after.end_).1
    refine ⟨?_, ?_, ?_⟩
    · simp [applyMods, remove_code, h p.before.code, hres.1]
    · simp [applyMods, remove_code, h p.before.code, hres.2.1]
    · intro p2 hp2 hfail
      rcases List.mem_cons.mp hp2 with hp2 | hp2
      · subst hp2
        have h2 := add_code_fail_of_api cfg dayNum env
          (removeFirst p2.before.code st).1 p2.after.code p2.after.start p2.after.end_ hfail
        simp [applyMods, remove_code, h p2.before.code, h2]
      · have h2 := hres.2.2 p2 hp2 hfail
        simp only [applyMods, remove_code, h p.before.code, Bool.false_eq_true,
          if_false, List.mem_append]
        right
        exact h2

theorem removeFirst_nodup (code : String) (st : List CodeRec)
    (h : (st.map CodeRec.code).Nodup) :
    (((removeFirst code st).1).map CodeRec.code).Nodup :=
  h.sublist ((removeFirst_sublist code st).map CodeRec.code)

theorem applyCancellations_nodup (env : LockEnv) :
    ∀ (st : List CodeRec) (bs : List Booking),
      (st.map CodeRec.code).Nodup →
      (((applyCancellations env st bs).lock).map CodeRec.code).Nodup := by
  intro st bs
  induction bs generalizing st with
  | nil => intro h; simpa [applyCancellations] using h
  | cons b rest ih =>
    intro h
    by_cases hr : env.removeApiFails b.code = true
    · simpa [applyCancellations, remove_code, hr] using h
    · rw [Bool.not_eq_true] at hr
      have h2 := ih ((removeFirst b.code st).1) (removeFirst_nodup b.code st h)
      simpa [applyCancellations, remove_code, hr] using h2

theorem applyNew_nodup (cfg : Config) (dayNum : String → Int) (env : LockEnv) :
    ∀ (st : List CodeRec) (bs : List Booking),
      (st.map CodeRec.code).Nodup →
      (((applyNew cfg dayNum env st bs).lock).map CodeRec.code).Nodup := by
  intro st bs
  induction bs generalizing st with
  | nil => intro h; simpa [applyNew] using h
  | cons b rest ih =>
    intro h
    have h2 := ih (add_code cfg dayNum env st b.code b.start b.end_).1
      (add_code_nodup cfg dayNum env st b.code b.start b.end_ h)
    simpa [applyNew] using h2

theorem applyMods_nodup (cfg : Config) (dayNum : String → Int) (env : LockEnv) :
    ∀ (st : List CodeRec) (ps : List ChangePair),
      (st.map CodeRec.code).Nodup →
      (((applyMods cfg dayNum env st ps).lock).map CodeRec.code).Nodup := by
  intro st ps
  induction ps generalizing st with
  | nil => intro h; simpa [applyMods] using h
  | cons p rest ih =>
    intro h
    by_cases hr : env.removeApiFails p.before.code = true
    · simpa [applyMods, remove_code, hr] using h
    · rw [Bool.not_eq_true] at hr
      have h2 := ih (add_code cfg dayNum env (removeFirst p.before.code st).1
          p.after.code p.after.start p.after.end_).1
        (add_code_nodup cfg dayNum env (removeFirst p.before.code st).1
          p.after.code p.after.start p.after.end_
          (removeFirst_nodup p.before.code st h))
      simpa [applyMods, remove_code, hr] using h2

theorem process_changes_nodup (cfg : Config) (dayNum : String → Int) (env : LockEnv)
    (dry_run lockAvailable : Bool) (changes : Changes) (st : List CodeRec)
    (h : (st.map CodeRec.code).Nodup) :
    (((process_changes cfg dayNum env dry_run lockAvailable changes st).lock).map
      CodeRec.code).Nodup := by
  unfold process_changes
  split_ifs with h1 h2 h3 h4
  · exact h
  · exact h
  · exact h
  · exact applyCancellations_nodup env st changes.cancellations h
  · exact applyMods_nodup cfg dayNum env _ _
      (applyNew_nodup cfg dayNum env _ _
        (applyCancellations_nodup env st changes.cancellations h))

theorem process_changes_raised_false (cfg : Config) (dayNum : String → Int)
    (env : LockEnv) (changes : Changes) (st : List CodeRec)
    (h : ∀ c, env.removeApiFails c = false) :
    (process_changes cfg dayNum env false true changes st).raised = false := by
  have hc := (applyCancellations_spec env h st changes.cancellations).1
  have hm := (applyMods_spec cfg dayNum env h
    (applyNew cfg dayNum env (applyCancellations env st changes.cancellations).lock
      changes.new_bookings).lock
    (changes.extensions ++ changes.date_changes)).1
  by_cases h1 : changes.cancellations.length + changes.new_bookings.length +
      changes.extensions.length + changes.date_changes.length = 0
  · simp [process_changes, h1]
  · simp [process_changes, h1, hc, hm]

theorem process_changes_trace_eq (cfg : Config) (dayNum : String → Int)
    (env : LockEnv) (changes : Changes) (st : List CodeRec)
    (h : ∀ c, env.removeApiFails c = false) :
    (process_changes cfg dayNum env false true changes st).trace =
      changes.cancellations.map (fun b => LockOp.removeCall b.code)
      ++ changes.new_bookings.map (fun b => LockOp.addCall b.code)
      ++ ((changes.extensions ++ changes.date_changes).map
            (fun p => [LockOp.removeCall p.before.code,
              LockOp.addCall p.after.code])).flatten := by
  have hc := applyCancellations_spec env h st changes.cancellations
  have hn := applyNew_spec cfg dayNum env
    (applyCancellations env st changes.cancellations).lock changes.new_bookings
  have hm := applyMods_spec cfg dayNum env h
    (applyNew cfg dayNum env (applyCancellations env st changes.cancellations).lock
      changes.new_bookings).lock
    (changes.extensions ++ changes.date_changes)
  by_cases h1 : changes.cancellations.length + changes.new_bookings.length +
      changes.extensions.length + changes.date_changes.length = 0
  · have e1 : changes.cancellations = [] := List.length_eq_zero.mp (by omega)
    have e2 : changes.new_bookings = [] := List.length_eq_zero.mp (by omega)
    have e3 : changes.extensions = [] := List.length_eq_zero.mp (by omega)
    have e4 : changes.date_changes = [] := List.length_eq_zero.mp (by omega)
    simp [process_changes, h1, e1, e2, e3, e4]
  · simp [process_changes, h1, hc.1, hc.2, hn.2.1, hm.2.1]

/-! Concrete fixtures for witnesses and counterexamples. -/

def cfg0 : Config := ⟨"16:00", "11:00", 5, 15, 0, none⟩

def day0 : String → Int := fun _ => 0

def env0 : LockEnv := ⟨fun _ => false, fun _ => false, fun _ => false⟩

def envFail1111 : LockEnv := ⟨fun c => c == "1111", fun _ => false, fun _ => false⟩

def envAddFail9999 : LockEnv := ⟨fun _ => false, fun c => c == "9999", fun _ => false⟩

def bBefore : Booking :=
  ⟨"Bob", none, "2026-03-01", "2026-03-05", "1111", some "1111", "t0"⟩

def bAfter : Booking :=
  ⟨"Bob", none, "2026-03-01", "2026-03-07", "2222", some "2222", "t1"⟩

def lockC4 : List CodeRec := [⟨"1111", "Guest_1111", some 0, some 10⟩]

/-- C3: replaying the same change set a second time (crash-and-retry)
raises no error in either pass, and afterwards every code value appears at
most once on the lock, because an add of an already-existing code is
treated as success-equivalent and leaves the device unchanged. -/
theorem process_changes_replay_idempotent (cfg : Config) (dayNum : String → Int)
    (env : LockEnv) (changes : Changes) (st : List CodeRec)
    (hapi : ∀ c, env.removeApiFails c = false)
    (hnd : (st.map CodeRec.code).Nodup) :
    (process_changes cfg dayNum env false true changes st).raised = false
    ∧ (process_changes cfg dayNum env false true changes
        (process_changes cfg dayNum env false true changes st).lock).raised = false
    ∧ ∀ c, ((process_changes cfg dayNum env false true changes
        (process_changes cfg dayNum env false true changes st).lock).lock.map
          CodeRec.code).count c ≤ 1 := by
  refine ⟨process_changes_raised_false cfg dayNum env changes st hapi,
    process_changes_raised_false cfg dayNum env changes _ hapi, ?_⟩
  have h1 := process_changes_nodup cfg dayNum env false true changes st hnd
  have h2 := process_changes_nodup cfg dayNum env false true changes _ h1
  exact List.nodup_iff_count_le_one.mp h2

def bNewC3 : Booking :=
  ⟨"Cara", none, "2026-04-01", "2026-04-03", "4321", some "4321", "t0"⟩

def chC3 : Changes := ⟨[], [bNewC3], [], []⟩

/-- Witness for C3 at a concrete change set and empty device. -/
theorem process_changes_replay_idempotent_witness :
    (∀ c, env0.removeApiFails c = false)
    ∧ ((([] : List CodeRec)).map CodeRec.code).Nodup
    ∧ ∀ c, ((process_changes cfg0 day0 env0 false true chC3
        (process_changes cfg0 day0 env0 false true chC3 []).lock).lock.map
          CodeRec.code).count c ≤ 1 :=
  ⟨fun _ => rfl, by simp,
    (process_changes_replay_idempotent cfg0 day0 env0 chC3 []
      (fun _ => rfl) (by simp)).2.2⟩

/-- C4 counterexample: with an API error on the revoke of the old code
`1111`, the exception propagates — the new code `2222` is never provisioned
(fail-open does not happen) and the apply phase aborts. -/
theorem process_changes_revoke_failure_not_fail_open :
    (process_changes cfg0 day0 envFail1111 false true
        ⟨[], [], [⟨bBefore, bAfter⟩], []⟩ lockC4).raised = true
    ∧ LockOp.addCall "2222" ∉ (process_changes cfg0 day0 envFail1111 false true
        ⟨[], [], [⟨bBefore, bAfter⟩], []⟩ lockC4).trace
    ∧ ∀ r ∈ (process_changes cfg0 day0 envFail1111 false true
        ⟨[], [], [⟨bBefore, bAfter⟩], []⟩ lockC4).lock, r.code ≠ "2222" := by
  decide

/-- C4 amended: for every extension or date change the controller calls
revoke(before) first and provision(after) second; when the revoke reports
not-found the provision still proceeds, but when the revoke raises an API
error the provision is not attempted and the apply phase aborts. -/
theorem process_changes_revoke_then_provision (cfg : Config) (dayNum : String → Int)
    (env : LockEnv) (changes : Changes) (st : List CodeRec) (b a : Booking) :
    ((∀ c, env.removeApiFails c = false) →
      (process_changes cfg dayNum env false true changes st).trace =
        changes.cancellations.map (fun x => LockOp.removeCall x.code)
        ++ changes.new_bookings.map (fun x => LockOp.addCall x.code)
        ++ ((changes.extensions ++ changes.date_changes).map
              (fun p => [LockOp.removeCall p.before.code,
                LockOp.addCall p.after.code])).flatten
      ∧ (process_changes cfg dayNum env false true changes st).raised = false)
    ∧ (env.removeApiFails b.code = true →
      (process_changes cfg dayNum env false true ⟨[], [], [⟨b, a⟩], []⟩ st).trace
          = [LockOp.removeCall b.code]
      ∧ (process_changes cfg dayNum env false true ⟨[], [], [⟨b, a⟩], []⟩ st).raised
          = true) := by
  constructor
  · intro hapi
    exact ⟨process_changes_trace_eq cfg dayNum env changes st hapi,
      process_changes_raised_false cfg dayNum env changes st hapi⟩
  · intro hf
    constructor
    · simp [process_changes, applyCancellations, applyNew, applyMods, remove_code, hf]
    · simp [process_changes, applyCancellations, applyNew, applyMods, remove_code, hf]

/-- Witness for C4 at concrete inputs: both the no-failure trace order and
the aborting revoke failure. -/
theorem process_changes_revoke_then_provision_witness :
    ((process_changes cfg0 day0 env0 false true
        ⟨[], [], [⟨bBefore, bAfter⟩], []⟩ []).trace
        = [LockOp.removeCall "1111", LockOp.addCall "2222"]
      ∧ (process_changes cfg0 day0 env0 false true
        ⟨[], [], [⟨bBefore, bAfter⟩], []⟩ []).raised = false)
    ∧ ((process_changes cfg0 day0 envFail1111 false true
        ⟨[], [], [⟨bBefore, bAfter⟩], []⟩ []).trace = [LockOp.removeCall "1111"]
      ∧ (process_changes cfg0 day0 envFail1111 false true
        ⟨[], [], [⟨bBefore, bAfter⟩], []⟩ []).raised = true) := by
  constructor
  · have h := (process_changes_revoke_then_provision cfg0 day0 env0
      ⟨[], [], [⟨bBefore, bAfter⟩], []⟩ [] bBefore bAfter).1 (fun c => rfl)
    exact ⟨h.1.trans (by decide), h.2⟩
  · exact (process_changes_revoke_then_provision cfg0 day0 envFail1111
      ⟨[], [], [⟨bBefore, bAfter⟩], []⟩ [] bBefore bAfter).2 (by decide)

def bCanA : Booking := ⟨"Ann", none, "2026-05-01", "2026-05-03", "1111", none, "t0"⟩

def bCanB : Booking := ⟨"Ben", none, "2026-05-04", "2026-05-06", "2222", none, "t0"⟩

def lockC6 : List CodeRec :=
  [⟨"1111", "Guest_1111", some 0, some 10⟩, ⟨"2222", "Guest_2222", some 0, some 10⟩]

/-- C6 counterexample: an API error on the removal of the first
cancellation's code aborts the run — the second cancellation is never
attempted and its code stays on the lock, contradicting the claim that a
failing remove lets processing of the remaining items continue. -/
theorem process_changes_remove_failure_aborts_rest :
    (process_changes cfg0 day0 envFail1111 false true
        ⟨[bCanA, bCanB], [], [], []⟩ lockC6).raised = true
    ∧ LockOp.removeCall "2222" ∉ (process_changes cfg0 day0 envFail1111 false true
        ⟨[bCanA, bCanB], [], [], []⟩ lockC6).trace
    ∧ (⟨"2222", "Guest_2222", some 0, some 10⟩ : CodeRec)
        ∈ (process_changes cfg0 day0 envFail1111 false true
            ⟨[bCanA, bCanB], [], [], []⟩ lockC6).lock := by
  decide

/-- C6 amended: a failing add is logged and never aborts — as long as no
remove raises, every item of the change set is processed (each planned call
appears in the trace) and each add that failed with a vendor API error
is recorded; but a remove that raises aborts the remaining items
(see the counterexample). -/
theorem process_changes_per_item_failures (cfg : Config) (dayNum : String → Int)
    (env : LockEnv) (changes : Changes) (st : List CodeRec)
    (hapi : ∀ c, env.removeApiFails c = false) :
    (process_changes cfg dayNum env false true changes st).raised = false
    ∧ (∀ b ∈ changes.cancellations,
        LockOp.removeCall b.code ∈ (process_changes cfg dayNum env false true changes st).trace)
    ∧ (∀ b ∈ changes.new_bookings,
        LockOp.addCall b.code ∈ (process_changes cfg dayNum env false true changes st).trace)
    ∧ (∀ p ∈ changes.extensions ++ changes.date_changes,
        LockOp.removeCall p.before.code
          ∈ (process_changes cfg dayNum env false true changes st).trace
        ∧ LockOp.addCall p.after.code
          ∈ (process_changes cfg dayNum env false true changes st).trace)
    ∧ (∀ b ∈ changes.new_bookings, env.addApiFails b.code = true →
        b.code ∈ (process_changes cfg dayNum env false true changes st).addFails)
    ∧ (∀ p ∈ changes.extensions ++ changes.date_changes,
        env.addApiFails p.after.code = true →
        p.after.code ∈ (process_changes cfg dayNum env false true changes st).addFails) := by
  have hc := applyCancellations_spec env hapi st changes.cancellations
  have hn := applyNew_spec cfg dayNum env
    (applyCancellations env st changes.cancellations).lock changes.new_bookings
  have hm := applyMods_spec cfg dayNum env hapi
    (applyNew cfg dayNum env (applyCancellations env st changes.cancellations).lock
      changes.new_bookings).lock
    (changes.extensions ++ changes.date_changes)
  have htr := process_changes_trace_eq cfg dayNum env changes st hapi
  refine ⟨process_changes_raised_false cfg dayNum env changes st hapi,
    ?_, ?_, ?_, ?_, ?_⟩
  · intro b hb
    rw [htr]
    exact List.mem_append_left _ (List.mem_append_left _ (List.mem_map_of_mem _ hb))
  · intro b hb
    rw [htr]
    exact List.mem_append_left _ (List.mem_append_right _ (List.mem_map_of_mem _ hb))
  · intro p hp
    constructor
    · rw [htr]
      refine List.mem_append_right _ (List.mem_flatten.mpr
        ⟨_, List.mem_map_of_mem _ hp, ?_⟩)
      exact List.mem_cons_self _ _
    · rw [htr]
      refine List.mem_append_right _ (List.mem_flatten.mpr
        ⟨_, List.mem_map_of_mem _ hp, ?_⟩)
      exact List.mem_cons_of_mem _ (List.mem_cons_self _ _)
  · intro b hb hfail
    by_cases h1 : changes.cancellations.length + changes.new_bookings.length +
        changes.extensions.length + changes.date_changes.length = 0
    · have e2 : changes.new_bookings = [] := List.length_eq_zero.mp (by omega)
      rw [e2] at hb
      simp at hb
    · have hmem := hn.2.2 b hb hfail
      have heq : (process_changes cfg dayNum env false true changes st).addFails
          = (applyNew cfg dayNum env
              (applyCancellations env st changes.cancellations).lock
              changes.new_bookings).addFails
            ++ (applyMods cfg dayNum env
                  (applyNew cfg dayNum env
                    (applyCancellations env st changes.cancellations).lock
                    changes.new_bookings).lock
                  (changes.extensions ++ changes.date_changes)).addFails := by
        simp [process_changes, h1, hc.1]
      rw [heq]
      exact List.mem_append_left _ hmem
  · intro p hp hfail
    by_cases h1 : changes.cancellations.length + changes.new_bookings.length +
        changes.extensions.length + changes.date_changes.length = 0
    · have e3 : changes.extensions = [] := List.length_eq_zero.mp (by omega)
      have e4 : changes.date_changes = [] := List.length_eq_zero.mp (by omega)
      rw [e3, e4] at hp
      simp at hp
    · have hmem := hm.2.2 p hp hfail
      have heq : (process_changes cfg dayNum env false true changes st).addFails
          = (applyNew cfg dayNum env
              (applyCancellations env st changes.cancellations).lock
              changes.new_bookings).addFails
            ++ (applyMods cfg dayNum env
                  (applyNew cfg dayNum env
                    (applyCancellations env st changes.cancellations).lock
                    changes.new_bookings).lock
                  (changes.extensions ++ changes.date_changes)).addFails := by
        simp [process_changes, h1, hc.1]
      rw [heq]
      exact List.mem_append_right _ hmem

def b9999 : Booking := ⟨"Dan", none, "2026-06-01", "2026-06-03", "9999", some "9999", "t0"⟩

def b8888 : Booking := ⟨"Eve", none, "2026-06-04", "2026-06-06", "8888", some "8888", "t0"⟩

def chC6w : Changes := ⟨[], [b9999, b8888], [], []⟩

/-- Witness for C6 amended: one add fails with a vendor error, the run does
not raise, the other item is still processed and the failure is recorded. -/
theorem process_changes_per_item_failures_witness :
    (process_changes cfg0 day0 envAddFail9999 false true chC6w []).raised = false
    ∧ LockOp.addCall "8888"
        ∈ (process_changes cfg0 day0 envAddFail9999 false true chC6w []).trace
    ∧ "9999" ∈ (process_changes cfg0 day0 envAddFail9999 false true chC6w []).addFails := by
  have h := process_changes_per_item_failures cfg0 day0 envAddFail9999 chC6w []
    (fun c => rfl)
  exact ⟨h.1, h.2.2.1 b8888 (by decide), h.2.2.2.2.1 b9999 (by decide) (by decide)⟩

/-! Cleanup sweep (`AirbnbWyzeSync.cleanup_old_codes`, sync.py:521-574). -/

/-- Python `str.startswith`, as a structural character-list prefix test
(the built-in `String.startsWith` does not reduce in the kernel). -/
def strStartsWith (s pre : String) : Bool :=
  List.isPrefixOf pre.data s.data

/-- Deletion predicate of the sweep loop (sync.py:538-547): the code's name
is truthy and starts with the ownership tag `Guest_`, it carries a
permission end, and that end is strictly before `now` minus the 14-day
grace period (minutes). -/
def cleanupCandidate (now : Int) (c : CodeRec) : Bool :=
  (decide (c.name ≠ "") && strStartsWith c.name "Guest_") &&
    (match c.permEnd with
     | some e => decide (e < now - 14 * 1440)
     | none => false)

/-- Per-code body of the sweep: dry-run counts without deleting; a failed
delete is logged and the sweep continues (sync.py:548-562). -/
def sweepCodes (env : LockEnv) (now : Int) (dryRun : Bool) :
    List CodeRec → List CodeRec × Nat
  | [] => ([], 0)
  | c :: rest =>
    let r := sweepCodes env now dryRun rest
    if cleanupCandidate now c then
      if dryRun then (c :: r.1, r.2 + 1)
      else if env.deleteFails c.code then (c :: r.1, r.2)
      else (r.1, r.2 + 1)
    else (c :: r.1, r.2)

/-- `AirbnbWyzeSync.cleanup_old_codes`: if the lock control plane is not
reachable the surrounding except logs and nothing is swept; otherwise the
sweep runs over the device's code list. Returns the remaining codes and
the removed count. -/
def cleanup_old_codes (env : LockEnv) (lockAvailable : Bool) (now : Int)
    (dryRun : Bool) (st : List CodeRec) : List CodeRec × Nat :=
  if lockAvailable then sweepCodes env now dryRun st else (st, 0)

theorem sweepCodes_spec (env : LockEnv) (now : Int)
    (h : ∀ s, env.deleteFails s = false) :
    ∀ st : List CodeRec,
      sweepCodes env now false st
        = (st.filter (fun c => !cleanupCandidate now c),
           st.countP (cleanupCandidate now)) := by
  intro st
  induction st with
  | nil => simp [sweepCodes]
  | cons c rest ih =>
    by_cases hc : cleanupCandidate now c = true
    · simp [sweepCodes, hc, h c.code, ih, List.countP_cons]
    · simp [sweepCodes, hc, ih, List.countP_cons]

theorem sweepCodes_untagged_kept (env : LockEnv) (now : Int) (dryRun : Bool) :
    ∀ st : List CodeRec, ∀ c ∈ st, strStartsWith c.name "Guest_" = false →
      c ∈ (sweepCodes env now dryRun st).1 := by
  intro st
  induction st with
  | nil => intro c hc; simp at hc
  | cons d rest ih =>
    intro c hc htag
    rcases List.mem_cons.mp hc with hc | hc
    · subst hc
      have hcand : cleanupCandidate now c = false := by
        simp [cleanupCandidate, htag]
      simp only [sweepCodes, hcand, Bool.false_eq_true, if_false]
      exact List.mem_cons_self _ _
    · have hmem := ih c hc htag
      simp only [sweepCodes]
      split_ifs <;>
        first
          | exact List.mem_cons_of_mem _ hmem
          | exact hmem

/-- C5: with the lock reachable and deletions succeeding, the sweep removes
exactly the codes that carry the `Guest_` ownership tag and whose validity
end is strictly before now minus the 14-day grace period (and counts them);
moreover, for any failure oracle, a code without the ownership tag is never
removed. -/
theorem cleanup_old_codes_spec (env : LockEnv) (now : Int) (codes : List CodeRec)
    (h : ∀ s, env.deleteFails s = false) :
    cleanup_old_codes env true now false codes
      = (codes.filter (fun c => !cleanupCandidate now c),
         codes.countP (cleanupCandidate now))
    ∧ ∀ (env2 : LockEnv) (c : CodeRec), c ∈ codes →
        strStartsWith c.name "Guest_" = false →
        c ∈ (cleanup_old_codes env2 true now false codes).1 := by
  constructor
  · simpa [cleanup_old_codes] using sweepCodes_spec env now h codes
  · intro env2 c hc htag
    simpa [cleanup_old_codes] using sweepCodes_untagged_kept env2 now false codes c hc htag

def cOld15 : CodeRec := ⟨"1234", "Guest_1234", some 0, some 78400⟩

def cOld10 : CodeRec := ⟨"5678", "Guest_5678", some 0, some 85600⟩

def cManual : CodeRec := ⟨"0000", "Manual entry", some 0, some 0⟩

/-- Witness for C5 at now = 100000 minutes: the tagged code that ended
15 days ago (78400 < 100000 - 20160) is removed, the tagged code that ended
10 days ago (85600) is retained, and the untagged code is retained. -/
theorem cleanup_old_codes_spec_witness :
    cleanup_old_codes env0 true 100000 false [cOld15, cOld10, cManual]
      = ([cOld10, cManual], 1)
    ∧ cManual ∈ (cleanup_old_codes env0 true 100000 false [cOld15, cOld10, cManual]).1 := by
  have h := cleanup_old_codes_spec env0 100000 [cOld15, cOld10, cManual] (fun s => rfl)
  exact ⟨h.1.trans (by decide), h.2 env0 cManual (by decide) (by decide)⟩

/-! Code derivation at parse time (`AirbnbWyzeSync._parse_ical`,
sync.py:350-358) and determinism of provisioning (C9). -/

/-- Value of one hex digit, as `int(code, 16)` reads it. -/
def hexDigitVal (c : Char) : Nat :=
  if '0' ≤ c ∧ c ≤ '9' then c.toNat - 48
  else if 'a' ≤ c ∧ c ≤ 'f' then c.toNat - 87
  else if 'A' ≤ c ∧ c ≤ 'F' then c.toNat - 55
  else 0

/-- `int(s, 16)` over the characters of `s`. -/
def hexToNat (s : String) : Nat :=
  s.data.foldl (fun n c => 16 * n + hexDigitVal c) 0

/-- Code choice of `_parse_ical` (sync.py:352-358): the phone's last four
digits when present, otherwise the first four characters of the decimal
rendering of the first four hex digits of the digest of
`booking_id ++ start ++ guest`. `md5hexdigest` abstracts
`hashlib.md5(...).hexdigest()` (a fixed pure function of its input). -/
def parse_ical_code (md5hexdigest : String → String)
    (booking_id start guest : String) (phone_last4 : Option String) : String :=
  match phone_last4 with
  | some p => p
  | none =>
    let code_seed := booking_id ++ start ++ guest
    let hex4 := (md5hexdigest code_seed).take 4
    (toString (hexToNat hex4)).take 4

/-- Raw iCal VEVENT data relevant to one booking, before the `Booking`
record is assembled (uid key, parsed summary/description fields). -/
structure IcalEvent where
  uid : String
  guest : String
  start : String
  end_ : String
  phone_last4 : Option String
  reservation_id : Option String
  created_at : String
deriving DecidableEq, Repr

/-- Access-code value computed for an event. -/
def event_code (md5hexdigest : String → String) (e : IcalEvent) : String :=
  parse_ical_code md5hexdigest e.uid e.start e.guest e.phone_last4

/-- Validity window `add_code` computes for an event. -/
def event_window (dayNum : String → Int) (cfg : Config) (e : IcalEvent) : Int × Int :=
  add_code_window dayNum cfg e.start e.end_

/-- C9: under a fixed configuration, hash and calendar parse, two events
agreeing on identifier, start, end, guest and phone fragment get the same
access code (the phone last-4 when present) and the same validity window —
whatever their other fields (reservation reference, creation time) are. -/
theorem event_code_window_deterministic (md5hexdigest : String → String)
    (dayNum : String → Int) (cfg : Config) (e1 e2 : IcalEvent)
    (hid : e1.uid = e2.uid) (hs : e1.start = e2.start) (he : e1.end_ = e2.end_)
    (hg : e1.guest = e2.guest) (hph : e1.phone_last4 = e2.phone_last4) :
    event_code md5hexdigest e1 = event_code md5hexdigest e2
    ∧ event_window dayNum cfg e1 = event_window dayNum cfg e2
    ∧ ∀ p : String, e1.phone_last4 = some p → event_code md5hexdigest e1 = p := by
  refine ⟨?_, ?_, ?_⟩
  · unfold event_code
    rw [hid, hs, hg, hph]
  · unfold event_window
    rw [hs, he]
  · intro p hp
    unfold event_code parse_ical_code
    rw [hp]

def evC9a : IcalEvent :=
  ⟨"UID1", "Fay", "2026-07-01", "2026-07-04", none, none, "t0"⟩

def evC9b : IcalEvent :=
  ⟨"UID1", "Fay", "2026-07-01", "2026-07-04", none, some "HMABCDEF", "t1"⟩

def md5W : String → String := fun _ => "9f3a0b12"

/-- Witness for C9: two events differing only in reservation reference and
creation time get the same synthesized code and window. -/
theorem event_code_window_deterministic_witness :
    event_code md5W evC9a = event_code md5W evC9b
    ∧ event_window day0 cfg0 evC9a = event_window day0 cfg0 evC9b :=
  ⟨(event_code_window_deterministic md5W day0 cfg0 evC9a evC9b
      rfl rfl rfl rfl rfl).1,
   (event_code_window_deterministic md5W day0 cfg0 evC9a evC9b
      rfl rfl rfl rfl rfl).2.1⟩

/-! State persistence (`AirbnbWyzeSync.save_bookings_state`, sync.py:273-277):
`open(self.state_file, 'w')` truncates the file in place, then `json.dump`
writes the serialized state in chunks. Modelled as a trace of file
operations so crash-observable contents can be enumerated. -/

/-- A primitive operation on the state file. -/
inductive FileOp where
  | truncate : FileOp
  | write : String → FileOp
deriving DecidableEq, Repr

/-- Effect of one operation on the file's content. -/
def applyFileOp (content : String) : FileOp → String
  | FileOp.truncate => ""
  | FileOp.write s => content ++ s

/-- Every content the file passes through while the operations run, starting
from `content` — the states observable if the process crashes at any point. -/
def crashContents (content : String) (ops : List FileOp) : List String :=
  ops.scanl applyFileOp content

/-- File-operation trace of `save_bookings_state`: `open(path, 'w')`
truncates the target file itself, then the serialized state is written
(`chunks` is its chunking); there is no temp file and no rename. -/
def save_bookings_state_ops (chunks : List String) : List FileOp :=
  FileOp.truncate :: chunks.map FileOp.write

/-- Partial concatenations of the written chunks, beginning with the empty
content left right after the truncate. -/
def accumWrites (chunks : List String) : List String :=
  chunks.scanl (fun acc s => acc ++ s) ""

/-- C8 counterexample: saving over old content "A" with new content "B"
exposes a crash state that is neither the complete old nor the complete new
content (the truncated empty file), refuting the write-temp-then-rename
atomicity claim. -/
theorem save_bookings_state_not_atomic :
    ¬ ∀ c ∈ crashContents "A" (save_bookings_state_ops ["B"]),
        c = "A" ∨ c = "B" := by
  intro h
  rcases h "" (by decide) with h1 | h1 <;> simp at h1

/-- C8 amended: `save_bookings_state` overwrites the state file in place —
truncate, then append the serialized chunks — so the crash-observable
contents are exactly the old content followed by every partial write,
and the empty (fully truncated) content is always among them. -/
theorem save_bookings_state_crash_contents (old : String) (chunks : List String) :
    crashContents old (save_bookings_state_ops chunks) = old :: accumWrites chunks
    ∧ "" ∈ crashContents old (save_bookings_state_ops chunks) := by
  have hgen : ∀ (acc : String) (cs : List String),
      crashContents acc (cs.map FileOp.write)
        = cs.scanl (fun a s => a ++ s) acc := by
    intro acc cs
    induction cs generalizing acc with
    | nil => simp [crashContents]
    | cons c rest ih =>
      simp only [List.map_cons, crashContents, List.scanl_cons]
      rw [show applyFileOp acc (FileOp.write c) = acc ++ c from rfl]
      exact congrArg _ (ih (acc ++ c))
  have h1 : crashContents old (save_bookings_state_ops chunks)
      = old :: accumWrites chunks := by
    simp only [save_bookings_state_ops, crashContents, List.scanl_cons]
    rw [show applyFileOp old FileOp.truncate = "" from rfl]
    exact congrArg _ (hgen "" chunks)
  refine ⟨h1, ?_⟩
  rw [h1]
  have h2 : "" ∈ accumWrites chunks := by
    unfold accumWrites
    cases chunks with
    | nil => simp
    | cons c rest => simp [List.scanl_cons]
  exact List.mem_cons_of_mem _ h2

/-! Orchestrating run (`AirbnbWyzeSync.sync`, sync.py:576-608) with the
credential-expiry check (`check_api_key_expiration`, sync.py:158-261). -/

/-- `save_bookings_state` at the record level: refresh `last_sync`, then
the record is what the file now holds. -/
def save_bookings_state (now : Int) (st : SyncState) : SyncState :=
  { st with last_sync := some now }

/-- `check_api_key_expiration`: reads the state file, fires at most one
pending warning tier for the configured key-expiry distance (days), and if
one fired writes the state file with the updated flags. Returns the file's
content afterwards and whether a write happened. `cfg.apiKeyDaysUntil` is
`none` when the expiry is unset or unparseable (then nothing happens). -/
def checkApiWarn : Option Int → Int → SyncState → SyncState × Bool
  | none, _, file => (file, false)
  | some d, now, file =>
    if d < 0 then
      if file.api_key_warnings.expired = false then
        (save_bookings_state now
          { file with api_key_warnings := { file.api_key_warnings with expired := true } },
         true)
      else (file, false)
    else if d ≤ 1 then
      if file.api_key_warnings.day1 = false then
        (save_bookings_state now
          { file with api_key_warnings := { file.api_key_warnings with day1 := true } },
         true)
      else (file, false)
    else if d ≤ 7 then
      if file.api_key_warnings.week1 = false then
        (save_bookings_state now
          { file with api_key_warnings := { file.api_key_warnings with week1 := true } },
         true)
      else (file, false)
    else if d ≤ 30 then
      if file.api_key_warnings.month1 = false then
        (save_bookings_state now
          { file with api_key_warnings := { file.api_key_warnings with month1 := true } },
         true)
      else (file, false)
    else (file, false)

/-- `check_api_key_expiration`: dispatch on the configured expiry distance
(the body lives in `checkApiWarn`). -/
def check_api_key_expiration (cfg : Config) (now : Int) (file : SyncState) :
    SyncState × Bool :=
  checkApiWarn cfg.apiKeyDaysUntil now file

/-- Observable outcome of one `sync` invocation. -/
structure SyncOutcome where
  file : SyncState
  fileWritten : Bool
  lock : List CodeRec
  trace : List LockOp
  raised : Bool
  cleanupRan : Bool
  cleanupRemoved : Nat
  fetchFailLogged : Bool
  connectFailLogged : Bool
deriving Repr

/-- `AirbnbWyzeSync.sync`: credential check first (may write the state
file), then fetch (`fetchRes = none` models a fetch/parse failure, which is
logged and yields the empty dict, sync.py:279-296); an empty current
snapshot returns before change detection; otherwise detect, apply (a raised
exception propagates: no cleanup, no save), cleanup, and finally write the
state file with the current snapshot and a fresh `last_sync` (the warning
flags are not carried into this final record, sync.py:604-608). -/
def sync (cfg : Config) (dayNum : String → Int) (parseDT : String → Int)
    (env : LockEnv) (dry_run lockAvailable : Bool) (now : Int)
    (file0 : SyncState) (lock0 : List CodeRec)
    (fetchRes : Option (List (String × Booking))) : SyncOutcome :=
  if (fetchRes.getD []).isEmpty then
    ⟨(check_api_key_expiration cfg now file0).1,
      (check_api_key_expiration cfg now file0).2,
      lock0, [], false, false, 0, fetchRes.isNone, false⟩
  else if (process_changes cfg dayNum env dry_run lockAvailable
      (detect_changes parseDT (check_api_key_expiration cfg now file0).1
        (fetchRes.getD []))
      lock0).raised then
    ⟨(check_api_key_expiration cfg now file0).1,
      (check_api_key_expiration cfg now file0).2,
      (process_changes cfg dayNum env dry_run lockAvailable
        (detect_changes parseDT (check_api_key_expiration cfg now file0).1
          (fetchRes.getD []))
        lock0).lock,
      (process_changes cfg dayNum env dry_run lockAvailable
        (detect_changes parseDT (check_api_key_expiration cfg now file0).1
          (fetchRes.getD []))
        lock0).trace,
      true, false, 0, false,
      (process_changes cfg dayNum env dry_run lockAvailable
        (detect_changes parseDT (check_api_key_expiration cfg now file0).1
          (fetchRes.getD []))
        lock0).connectFail⟩
  else
    ⟨⟨fetchRes.getD [], ⟨false, false, false, false⟩, some now⟩,
      true,
      (cleanup_old_codes env lockAvailable now dry_run
        (process_changes cfg dayNum env dry_run lockAvailable
          (detect_changes parseDT (check_api_key_expiration cfg now file0).1
            (fetchRes.getD []))
          lock0).lock).1,
      (process_changes cfg dayNum env dry_run lockAvailable
        (detect_changes parseDT (check_api_key_expiration cfg now file0).1
          (fetchRes.getD []))
        lock0).trace,
      false, true,
      (cleanup_old_codes env lockAvailable now dry_run
        (process_changes cfg dayNum env dry_run lockAvailable
          (detect_changes parseDT (check_api_key_expiration cfg now file0).1
            (fetchRes.getD []))
          lock0).lock).2,
      false,
      (process_changes cfg dayNum env dry_run lockAvailable
        (detect_changes parseDT (check_api_key_expiration cfg now file0).1
          (fetchRes.getD []))
        lock0).connectFail⟩

theorem check_api_key_bookings (cfg : Config) (now : Int) (file : SyncState) :
    ((check_api_key_expiration cfg now file).1).bookings = file.bookings := by
  unfold check_api_key_expiration
  cases cfg.apiKeyDaysUntil with
  | none => rfl
  | some d =>
    simp only [checkApiWarn]
    split_ifs <;> rfl

def lockW : List CodeRec := [⟨"1234", "Guest_1234", some 0, some 10⟩]

def bExt : Booking :=
  ⟨"Alice", none, "2026-02-01", "2026-02-07", "1234", some "1234", "t1"⟩

/-- C2: evaluated at the failing input — previous state holds booking B1,
the fetched snapshot extends it, and the lock control plane is unreachable.
The connection failure is logged and the apply phase performs no lock call,
yet `sync` still writes the state file with the new snapshot, so the next
run detects no changes at all: the extension is silently lost instead of
being retried against the unmodified previous state. -/
theorem sync_control_plane_failure_advances_state :
    (detect_changes dtVal stateW [("B1", bExt)]).extensions
        = [⟨bW_prev, bExt⟩]
    ∧ (sync cfg0 day0 dtVal env0 false false 100 stateW lockW
        (some [("B1", bExt)])).connectFailLogged = true
    ∧ (sync cfg0 day0 dtVal env0 false false 100 stateW lockW
        (some [("B1", bExt)])).trace = []
    ∧ (sync cfg0 day0 dtVal env0 false false 100 stateW lockW
        (some [("B1", bExt)])).lock = lockW
    ∧ (sync cfg0 day0 dtVal env0 false false 100 stateW lockW
        (some [("B1", bExt)])).raised = false
    ∧ (sync cfg0 day0 dtVal env0 false false 100 stateW lockW
        (some [("B1", bExt)])).file.bookings = [("B1", bExt)]
    ∧ (sync cfg0 day0 dtVal env0 false false 100 stateW lockW
        (some [("B1", bExt)])).fileWritten = true
    ∧ (detect_changes dtVal
        (sync cfg0 day0 dtVal env0 false false 100 stateW lockW
          (some [("B1", bExt)])).file [("B1", bExt)])
        = ⟨[], [], [], []⟩ := by
  decide

/-- C7 amended: when the calendar fetch or parse fails, the run returns
before change detection: the stored bookings snapshot is unchanged, the
lock is untouched, no call is made, the failure is logged and no cleanup
runs; the state file itself is byte-identical whenever no credential-expiry
warning is configured (the pre-fetch expiry check is the only possible
write, and it only updates warning flags and the last-sync stamp). -/
theorem sync_fetch_failure_preserves_bookings (cfg : Config)
    (dayNum parseDT : String → Int) (env : LockEnv)
    (dry_run lockAvailable : Bool) (now : Int)
    (file0 : SyncState) (lock0 : List CodeRec) :
    (sync cfg dayNum parseDT env dry_run lockAvailable now file0 lock0
        none).file.bookings = file0.bookings
    ∧ (sync cfg dayNum parseDT env dry_run lockAvailable now file0 lock0
        none).lock = lock0
    ∧ (sync cfg dayNum parseDT env dry_run lockAvailable now file0 lock0
        none).trace = []
    ∧ (sync cfg dayNum parseDT env dry_run lockAvailable now file0 lock0
        none).raised = false
    ∧ (sync cfg dayNum parseDT env dry_run lockAvailable now file0 lock0
        none).cleanupRan = false
    ∧ (sync cfg dayNum parseDT env dry_run lockAvailable now file0 lock0
        none).fetchFailLogged = true
    ∧ (cfg.apiKeyDaysUntil = none →
        (sync cfg dayNum parseDT env dry_run lockAvailable now file0 lock0
          none).file = file0
        ∧ (sync cfg dayNum parseDT env dry_run lockAvailable now file0 lock0
          none).fileWritten = false) := by
  have hr : sync cfg dayNum parseDT env dry_run lockAvailable now file0 lock0 none
      = ⟨(check_api_key_expiration cfg now file0).1,
          (check_api_key_expiration cfg now file0).2,
          lock0, [], false, false, 0, true, false⟩ := by
    simp [sync]
  refine ⟨by rw [hr]; exact check_api_key_bookings cfg now file0,
    by rw [hr], by rw [hr], by rw [hr], by rw [hr], by rw [hr], ?_⟩
  intro hnone
  rw [hr]
  simp [check_api_key_expiration, checkApiWarn, hnone]

/-- Witness for C7 amended at a concrete run with no expiry configured. -/
theorem sync_fetch_failure_preserves_bookings_witness :
    (sync cfg0 day0 dtVal env0 false true 100 stateW lockW none).file = stateW
    ∧ (sync cfg0 day0 dtVal env0 false true 100 stateW lockW
        none).fileWritten = false
    ∧ (sync cfg0 day0 dtVal env0 false true 100 stateW lockW none).lock = lockW := by
  have h := sync_fetch_failure_preserves_bookings cfg0 day0 dtVal env0 false true
    100 stateW lockW
  exact ⟨(h.2.2.2.2.2.2 rfl).1, (h.2.2.2.2.2.2 rfl).2, h.2.1⟩

def cfgW5 : Config := { cfg0 with apiKeyDaysUntil := some 5 }

/-- C7 counterexample: with a credential expiry five days out and its
warning not yet fired, a run whose fetch fails still writes the state file
(warning flags and last-sync change), so the file is not byte-for-byte
unchanged as claimed. -/
theorem sync_fetch_failure_state_file_written :
    (sync cfgW5 day0 dtVal env0 false true 100 stateW lockW none).fileWritten = true
    ∧ (sync cfgW5 day0 dtVal env0 false true 100 stateW lockW none).file ≠ stateW := by
  decide

/-- C10 amended: whenever the fetched current snapshot is empty — fetch
failure or a genuinely empty calendar — the run returns before change
detection: no lock call is made (so no code is revoked), no cleanup sweep
runs, and the bookings snapshot in the state file is not advanced; the
end-of-run save does not happen, the only possible write being the
pre-fetch credential-expiry warning update. -/
theorem sync_empty_snapshot_early_return (cfg : Config)
    (dayNum parseDT : String → Int) (env : LockEnv)
    (dry_run lockAvailable : Bool) (now : Int)
    (file0 : SyncState) (lock0 : List CodeRec)
    (fetchRes : Option (List (String × Booking)))
    (h : fetchRes.getD [] = []) :
    (sync cfg dayNum parseDT env dry_run lockAvailable now file0 lock0
        fetchRes).trace = []
    ∧ (sync cfg dayNum parseDT env dry_run lockAvailable now file0 lock0
        fetchRes).lock = lock0
    ∧ (sync cfg dayNum parseDT env dry_run lockAvailable now file0 lock0
        fetchRes).cleanupRan = false
    ∧ (sync cfg dayNum parseDT env dry_run lockAvailable now file0 lock0
        fetchRes).cleanupRemoved = 0
    ∧ (sync cfg dayNum parseDT env dry_run lockAvailable now file0 lock0
        fetchRes).raised = false
    ∧ (sync cfg dayNum parseDT env dry_run lockAvailable now file0 lock0
        fetchRes).file.bookings = file0.bookings
    ∧ (cfg.apiKeyDaysUntil = none →
        (sync cfg dayNum parseDT env dry_run lockAvailable now file0 lock0
          fetchRes).fileWritten = false
        ∧ (sync cfg dayNum parseDT env dry_run lockAvailable now file0 lock0
          fetchRes).file = file0) := by
  have hr : sync cfg dayNum parseDT env dry_run lockAvailable now file0 lock0 fetchRes
      = ⟨(check_api_key_expiration cfg now file0).1,
          (check_api_key_expiration cfg now file0).2,
          lock0, [], false, false, 0, fetchRes.isNone, false⟩ := by
    simp [sync, h]
  refine ⟨by rw [hr], by rw [hr], by rw [hr], by rw [hr], by rw [hr],
    by rw [hr]; exact check_api_key_bookings cfg now file0, ?_⟩
  intro hnone
  rw [hr]
  simp [check_api_key_expiration, checkApiWarn, hnone]

/-- Witness for C10 amended: a genuinely empty calendar with a previous
booking on file revokes nothing and does not advance the bookings state. -/
theorem sync_empty_snapshot_early_return_witness :
    (sync cfg0 day0 dtVal env0 false true 100 stateW lockW (some [])).trace = []
    ∧ (sync cfg0 day0 dtVal env0 false true 100 stateW lockW
        (some [])).lock = lockW
    ∧ (sync cfg0 day0 dtVal env0 false true 100 stateW lockW
        (some [])).file = stateW := by
  have h := sync_empty_snapshot_early_return cfg0 day0 dtVal env0 false true 100
    stateW lockW (some []) rfl
  exact ⟨h.1, h.2.1, (h.2.2.2.2.2.2 rfl).2⟩

def cfgW0 : Config := { cfg0 with apiKeyDaysUntil := some 0 }

/-- C10 counterexample: with a credential-expiry warning pending, a run
whose current snapshot is empty still writes the state file — the claim
that the state file is not written in that case is too strong (though no
code is revoked and no cleanup runs). -/
theorem sync_empty_current_state_file_written :
    (sync cfgW0 day0 dtVal env0 false true 100 stateW lockW (some [])).fileWritten
        = true
    ∧ (sync cfgW0 day0 dtVal env0 false true 100 stateW lockW (some [])).trace = []
    ∧ (sync cfgW0 day0 dtVal env0 false true 100 stateW lockW
        (some [])).cleanupRan = false := by
  decide
